import Mathlib

/-!
Verification of the dispatch core of the files endpoints module
(litellm/proxy/openai_files_endpoints/files_endpoints.py).

The Python module is embedded shallowly: Python values that flow through the
configuration store, the model sniffer and the dispatch decision are modelled
by the inductive type PyVal; Python exceptions that can be raised along these
paths are modelled by PyExc; functions that can raise return Except PyExc.
Dictionaries are modelled as ordered association lists with first-match
lookup, which matches the observable lookup behaviour of Python dicts
(whose keys are unique).
-/

/-- Python values occurring in this module: the configuration store holds a
list of settings groups (dicts from string keys to values), and the model
sniffer produces arbitrary values decoded from JSON. Dict keys are modelled
as strings, which covers every dict built by this module (JSON object keys
and configuration keys are strings). Floats carry only what the module ever
observes about them: their truthiness (whether the value is zero) and their
source text. -/
inductive PyVal where
  | none'
  | bool (b : Bool)
  | int (n : Int)
  | float (isZero : Bool) (lit : String)
  | str (s : String)
  | list (elems : List PyVal)
  | dict (entries : List (String × PyVal))

/-- Python truthiness, as used by the statements if json_obj: and
body or in the source. -/
def pyTruthy : PyVal → Bool
  | .none' => false
  | .bool b => b
  | .int n => decide (n ≠ 0)
  | .float isZero _ => !isZero
  | .str s => decide (s ≠ "")
  | .list xs => !xs.isEmpty
  | .dict es => !es.isEmpty

/-- d.get(key) / d[key] read access: first-match lookup in the association
list (Python dict keys are unique, so first match is the match). -/
def dictLookup : List (String × PyVal) → String → Option PyVal
  | [], _ => Option.none
  | (k, v) :: rest, key => if k = key then some v else dictLookup rest key

/-- d[key] = v write access: replace the value at the first occurrence of
the key, else append the new pair (Python dicts keep insertion order and
update values in place). -/
def dictSet : List (String × PyVal) → String → PyVal → List (String × PyVal)
  | [], k, v => [(k, v)]
  | (k', v') :: rest, k, v =>
      if k' = k then (k, v) :: rest else (k', v') :: dictSet rest k v

/-- d.update(e): for every pair of e in order, d[k] = v. This is the exact
merge used on the outgoing create-file request, where values coming from e
overwrite values already in d. -/
def dictUpdate (d e : List (String × PyVal)) : List (String × PyVal) :=
  e.foldl (fun acc kv => dictSet acc kv.1 kv.2) d

/-- d.pop(key, None): remove the key. Python dict keys are unique, so
removing the key is the same as filtering out every pair with that key,
which is how it is modelled here. -/
def dictPop : List (String × PyVal) → String → List (String × PyVal)
  | [], _ => []
  | (k', v') :: rest, k =>
      if k' = k then dictPop rest k else (k', v') :: dictPop rest k

/-- Projection used to state lookups at string-valued keys without needing
decidable equality of whole Python values. -/
def asStr : Option PyVal → Option String
  | some (.str s) => some s
  | _ => Option.none

/-- True exactly on Python lists; isinstance(config, list). -/
def pyIsList : PyVal → Bool
  | .list _ => true
  | _ => false

/-- True exactly on Python dicts; isinstance(element, dict). -/
def isDictV : PyVal → Bool
  | .dict _ => true
  | _ => false

/-- True exactly on Python None. -/
def pyIsNone : PyVal → Bool
  | .none' => true
  | _ => false

/-- Python exceptions that can be raised along the paths of this module:
fastapi.HTTPException (which always carries a status code and a detail
payload), ValueError, IndexError, AttributeError, TypeError, and an
arbitrary exception coming back from a backend call, which may or may not
carry transport-level status_code / message / type / param attributes and
always has a string representation. -/
inductive PyExc where
  | httpException (status_code : Nat) (detail : String)
  | valueError (msg : String)
  | indexError
  | attributeError
  | typeError
  | backendExc (status_code : Option Nat) (message : Option String)
      (excType : Option String) (param : Option String) (strRepr : String)

/-- str(e) for the modelled exceptions. -/
def pyStrOf : PyExc → String
  | .httpException _ d => d
  | .valueError m => m
  | .indexError => "list index out of range"
  | .attributeError => "object has no attribute"
  | .typeError => "type error"
  | .backendExc _ _ _ _ sr => sr

/-- The normalized gateway failure raised by every operation handler:
ProxyException(message=..., type=..., param=..., code=...). -/
structure ProxyException where
  message : String
  type : String
  param : String
  code : Nat

/-- The except-block shared verbatim by all five operation handlers
(create_file lines 247-271, get_file_content 373-397, get_file 488-512,
delete_file 605-629, list_files 721-745): an HTTPException keeps its own
status code (getattr status_code, default 400, but fastapi HTTPException
always carries one) and its detail as message; any other exception keeps a
status_code / message / type / param attribute when it has one and defaults
to code 500 otherwise. -/
def normalizeException : PyExc → ProxyException
  | .httpException s d =>
      { message := d, type := "None", param := "None", code := s }
  | .backendExc sc msg ty pa sr =>
      { message := msg.getD sr, type := ty.getD "None",
        param := pa.getD "None", code := sc.getD 500 }
  | e => { message := pyStrOf e, type := "None", param := "None", code := 500 }

/-- The handler boundary: the body of a handler either succeeds or raises a
Python exception, and the shared except block converts every exception into
a ProxyException, so no raw exception escapes. -/
def runHandler {α : Type} (body : Except PyExc α) : Except ProxyException α :=
  body.mapError normalizeException

/-- The status-code attribute an exception already carries, if any
(getattr(e, status_code, ...) in the source). -/
def excStatusCode : PyExc → Option Nat
  | .httpException s _ => some s
  | .backendExc sc _ _ _ _ => sc
  | _ => Option.none

/-- The transport-level message an exception already carries, if any:
an HTTPException communicates its detail, a backend exception its message
attribute when present. -/
def excMessageAttr : PyExc → Option String
  | .httpException _ d => some d
  | .backendExc _ m _ _ _ => m
  | _ => Option.none

/-- Strict UTF-8 decoding of a byte sequence, as performed by
file_content_bytes.decode("utf-8"): rejects continuation bytes in lead
position, overlong encodings, surrogates and code points beyond U+10FFFF.
Returns the decoded character sequence, or Option.none where Python raises
UnicodeDecodeError. -/
def utf8Decode : List Nat → Option (List Char)
  | [] => some []
  | b :: rest =>
    if b < 0x80 then
      match utf8Decode rest with
      | some cs => some (Char.ofNat b :: cs)
      | Option.none => Option.none
    else if b < 0xC2 then Option.none
    else if b < 0xE0 then
      match rest with
      | b1 :: r1 =>
        if b1 / 0x40 = 2 then
          match utf8Decode r1 with
          | some cs => some (Char.ofNat ((b % 0x20) * 0x40 + b1 % 0x40) :: cs)
          | Option.none => Option.none
        else Option.none
      | [] => Option.none
    else if b < 0xF0 then
      match rest with
      | b1 :: b2 :: r2 =>
        if (if b = 0xE0 then 0xA0 ≤ b1 ∧ b1 ≤ 0xBF
            else if b = 0xED then 0x80 ≤ b1 ∧ b1 ≤ 0x9F
            else b1 / 0x40 = 2) ∧ b2 / 0x40 = 2 then
          match utf8Decode r2 with
          | some cs =>
              some (Char.ofNat ((b % 0x10) * 0x1000 + (b1 % 0x40) * 0x40 + b2 % 0x40) :: cs)
          | Option.none => Option.none
        else Option.none
      | _ => Option.none
    else if b < 0xF5 then
      match rest with
      | b1 :: b2 :: b3 :: r3 =>
        if (if b = 0xF0 then 0x90 ≤ b1 ∧ b1 ≤ 0xBF
            else if b = 0xF4 then 0x80 ≤ b1 ∧ b1 ≤ 0x8F
            else b1 / 0x40 = 2) ∧ b2 / 0x40 = 2 ∧ b3 / 0x40 = 2 then
          match utf8Decode r3 with
          | some cs =>
              some (Char.ofNat ((b % 8) * 0x40000 + (b1 % 0x40) * 0x1000 +
                (b2 % 0x40) * 0x40 + b3 % 0x40) :: cs)
          | Option.none => Option.none
        else Option.none
      | _ => Option.none
    else Option.none

/-- The line boundaries recognized by str.splitlines. -/
def isLineBoundary (c : Char) : Bool :=
  c.toNat = 10 || c.toNat = 13 || c.toNat = 0x0b || c.toNat = 0x0c ||
  c.toNat = 0x1c || c.toNat = 0x1d || c.toNat = 0x1e || c.toNat = 0x85 ||
  c.toNat = 0x2028 || c.toNat = 0x2029

/-- Worker for splitlines: acc holds the current line, reversed. Fueled
(every step consumes at least one character, so fuel exceeding the input
length never runs out before the input does). -/
def splitlinesGo : Nat → List Char → List Char → List (List Char)
  | 0, _, acc => if acc.isEmpty then [] else [acc.reverse]
  | _ + 1, [], acc => if acc.isEmpty then [] else [acc.reverse]
  | f + 1, c :: cs, acc =>
    if c.toNat = 13 then
      match cs with
      | d :: cs' =>
        if d.toNat = 10 then acc.reverse :: splitlinesGo f cs' []
        else acc.reverse :: splitlinesGo f cs []
      | [] => [acc.reverse]
    else if isLineBoundary c then acc.reverse :: splitlinesGo f cs []
    else splitlinesGo f cs (c :: acc)

/-- str.splitlines: splits on the Python line boundaries, with a carriage
return / line feed pair counting as a single boundary and no trailing empty
line. The empty string yields the empty list, which is what makes the index
access first line = splitlines()[0] in the sniffer raise IndexError. -/
def splitlines (l : List Char) : List (List Char) := splitlinesGo (l.length + 1) l []

/-- The characters str.strip removes (Python str.isspace characters). -/
def isPySpace (c : Char) : Bool :=
  c.toNat = 32 || c.toNat = 9 || c.toNat = 10 || c.toNat = 13 ||
  c.toNat = 0x0b || c.toNat = 0x0c || (0x1c ≤ c.toNat && c.toNat ≤ 0x1f) ||
  c.toNat = 0x85 || c.toNat = 0xa0 || c.toNat = 0x1680 ||
  (0x2000 ≤ c.toNat && c.toNat ≤ 0x200a) || c.toNat = 0x2028 ||
  c.toNat = 0x2029 || c.toNat = 0x202f || c.toNat = 0x205f || c.toNat = 0x3000

/-- str.strip() on a character sequence. -/
def pyStrip (l : List Char) : List Char :=
  ((l.dropWhile isPySpace).reverse.dropWhile isPySpace).reverse

/-- JSON insignificant whitespace (space, tab, line feed, carriage return). -/
def skipWs : List Char → List Char
  | c :: cs =>
    if c.toNat = 32 || c.toNat = 9 || c.toNat = 10 || c.toNat = 13 then skipWs cs
    else c :: cs
  | [] => []

/-- Value of a hexadecimal digit character, if it is one. -/
def hexDigit (c : Char) : Option Nat :=
  if 48 ≤ c.toNat ∧ c.toNat ≤ 57 then some (c.toNat - 48)
  else if 97 ≤ c.toNat ∧ c.toNat ≤ 102 then some (c.toNat - 87)
  else if 65 ≤ c.toNat ∧ c.toNat ≤ 70 then some (c.toNat - 55)
  else Option.none

/-- The single-character JSON string escapes. -/
def escChar (c : Char) : Option Char :=
  if c = '"' then some '"'
  else if c = '\\' then some '\\'
  else if c = '/' then some '/'
  else if c = 'b' then some (Char.ofNat 8)
  else if c = 'f' then some (Char.ofNat 12)
  else if c = 'n' then some (Char.ofNat 10)
  else if c = 'r' then some (Char.ofNat 13)
  else if c = 't' then some (Char.ofNat 9)
  else Option.none

/-- Body of a JSON string after the opening quote; acc holds the decoded
characters, reversed. Surrogate pairs in unicode escapes are combined; a
lone surrogate (which Python would keep as a surrogate code unit) is mapped
to the replacement produced by Char.ofNat on an invalid code point, since
Lean characters cannot carry surrogates - no claim in this development
inspects such strings. -/
def jstrAux : Nat → List Char → List Char → Option (String × List Char)
  | 0, _, _ => Option.none
  | _ + 1, [], _ => Option.none
  | f + 1, c :: rest, acc =>
    if c = '"' then some (String.mk acc.reverse, rest)
    else if c = '\\' then
      match rest with
      | 'u' :: h1 :: h2 :: h3 :: h4 :: rest2 =>
        match hexDigit h1, hexDigit h2, hexDigit h3, hexDigit h4 with
        | some a, some b, some cc, some d =>
          let n := a * 4096 + b * 256 + cc * 16 + d
          if 0xD800 ≤ n ∧ n ≤ 0xDBFF then
            match rest2 with
            | '\\' :: 'u' :: g1 :: g2 :: g3 :: g4 :: rest3 =>
              match hexDigit g1, hexDigit g2, hexDigit g3, hexDigit g4 with
              | some a', some b', some c', some d' =>
                let m := a' * 4096 + b' * 256 + c' * 16 + d'
                if 0xDC00 ≤ m ∧ m ≤ 0xDFFF then
                  jstrAux f rest3
                    (Char.ofNat (0x10000 + (n - 0xD800) * 0x400 + (m - 0xDC00)) :: acc)
                else jstrAux f rest2 (Char.ofNat n :: acc)
              | _, _, _, _ => jstrAux f rest2 (Char.ofNat n :: acc)
            | _ => jstrAux f rest2 (Char.ofNat n :: acc)
          else jstrAux f rest2 (Char.ofNat n :: acc)
        | _, _, _, _ => Option.none
      | e :: rest2 =>
        match escChar e with
        | some ec => jstrAux f rest2 (ec :: acc)
        | Option.none => Option.none
      | [] => Option.none
    else if c.toNat < 32 then Option.none
    else jstrAux f rest (c :: acc)

/-- A JSON string, starting at its opening quote. The fuel exceeds the
remaining input length and every step of the worker consumes at least one
character, so the fuel never runs out before the input does. -/
def parseJString : List Char → Option (String × List Char)
  | '"' :: rest => jstrAux (rest.length + 1) rest []
  | _ => Option.none

/-- Decimal digit test. -/
def isDigitC (c : Char) : Bool := 48 ≤ c.toNat && c.toNat ≤ 57

/-- Natural number denoted by a digit sequence. -/
def digitsToNat (ds : List Char) : Nat :=
  ds.foldl (fun acc c => acc * 10 + (c.toNat - 48)) 0

/-- Exponent part of a JSON number, starting right after the e or E marker:
optional sign then at least one digit. Returns the exponent lexeme and the
remaining input. -/
def expPart (cs : List Char) : Option (List Char × List Char) :=
  match cs with
  | '+' :: t =>
    let ds := t.takeWhile isDigitC
    if ds.isEmpty then Option.none else some ('+' :: ds, t.drop ds.length)
  | '-' :: t =>
    let ds := t.takeWhile isDigitC
    if ds.isEmpty then Option.none else some ('-' :: ds, t.drop ds.length)
  | _ =>
    let ds := cs.takeWhile isDigitC
    if ds.isEmpty then Option.none else some (ds, cs.drop ds.length)

/-- Fraction and exponent of a JSON number, after the integer part.
Returns (the number is a float, the fraction digits are all zero, the
remaining input, the consumed lexeme). -/
def fracExp (cs : List Char) : Option (Bool × Bool × List Char × List Char) :=
  match cs with
  | '.' :: t =>
    let fs := t.takeWhile isDigitC
    if fs.isEmpty then Option.none
    else
      let rest := t.drop fs.length
      let fz := fs.all (fun c => c == '0')
      match rest with
      | c :: t2 =>
        if c = 'e' ∨ c = 'E' then
          match expPart t2 with
          | some (ex, rem) => some (true, fz, rem, '.' :: (fs ++ c :: ex))
          | Option.none => Option.none
        else some (true, fz, rest, '.' :: fs)
      | [] => some (true, fz, [], '.' :: fs)
  | c :: t2 =>
    if c = 'e' ∨ c = 'E' then
      match expPart t2 with
      | some (ex, rem) => some (true, true, rem, c :: ex)
      | Option.none => Option.none
    else some (false, true, cs, [])
  | [] => some (false, true, [], [])

/-- Unsigned JSON number body: integer part without leading zeros, then an
optional fraction and exponent. Integral lexemes produce Python ints, the
rest produce floats. -/
def parseNumBody (cs : List Char) : Option (PyVal × List Char) :=
  let ip := cs.takeWhile isDigitC
  let rest := cs.drop ip.length
  if ip.isEmpty then Option.none
  else if 1 < ip.length ∧ ip.headD '0' = '0' then Option.none
  else
    match fracExp rest with
    | some (isFloat, fracZero, tail, lexTail) =>
      if isFloat then
        some (.float (ip.all (fun c => c == '0') && fracZero)
          (String.mk (ip ++ lexTail)), tail)
      else some (.int (Int.ofNat (digitsToNat ip)), tail)
    | Option.none => Option.none

/-- Negation of a parsed number. -/
def negNum : PyVal → PyVal
  | .int n => .int (-n)
  | .float z l => .float z (String.mk ('-' :: l.data))
  | v => v

/-- A JSON number, possibly signed. -/
def parseNumber (cs : List Char) : Option (PyVal × List Char) :=
  match cs with
  | '-' :: t => (parseNumBody t).map (fun p => (negNum p.1, p.2))
  | _ => parseNumBody cs

/-- Match a literal keyword, returning the remaining input. -/
def startsWithChars : List Char → List Char → Option (List Char)
  | [], cs => some cs
  | p :: ps, c :: cs => if c = p then startsWithChars ps cs else Option.none
  | _ :: _, [] => Option.none

/-- Members of a JSON object, given a parser pv for the element values;
fueled by the length of the remaining input. Duplicate keys follow Python
json semantics: the last occurrence wins. -/
def parseMembersWith (pv : List Char → Option (PyVal × List Char)) :
    Nat → List (String × PyVal) → List Char → Option (PyVal × List Char)
  | 0, _, _ => Option.none
  | f + 1, acc, cs =>
    match parseJString (skipWs cs) with
    | Option.none => Option.none
    | some (k, cs1) =>
      match skipWs cs1 with
      | ':' :: cs2 =>
        match pv cs2 with
        | Option.none => Option.none
        | some (v, cs3) =>
          match skipWs cs3 with
          | ',' :: cs4 => parseMembersWith pv f (dictSet acc k v) cs4
          | '\x7d' :: cs4 => some (.dict (dictSet acc k v), cs4)
          | _ => Option.none
      | _ => Option.none

/-- Items of a JSON array, given a parser pv for the element values. -/
def parseItemsWith (pv : List Char → Option (PyVal × List Char)) :
    Nat → List PyVal → List Char → Option (PyVal × List Char)
  | 0, _, _ => Option.none
  | f + 1, acc, cs =>
    match pv cs with
    | Option.none => Option.none
    | some (v, cs1) =>
      match skipWs cs1 with
      | ',' :: cs2 => parseItemsWith pv f (v :: acc) cs2
      | ']' :: cs2 => some (.list (v :: acc).reverse, cs2)
      | _ => Option.none

/-- A JSON value (fueled; every descent into a nested value consumes at
least one character, so fuel exceeding the input length suffices). Accepts
what json.loads accepts by default, including the NaN and Infinity
extensions. -/
def parseValFuel : Nat → List Char → Option (PyVal × List Char)
  | 0, _ => Option.none
  | f + 1, cs =>
    match skipWs cs with
    | [] => Option.none
    | c :: rest =>
      if c = '\x7b' then
        match skipWs rest with
        | '\x7d' :: rest2 => some (.dict [], rest2)
        | _ => parseMembersWith (parseValFuel f) (rest.length + 1) [] rest
      else if c = '[' then
        match skipWs rest with
        | ']' :: rest2 => some (.list [], rest2)
        | _ => parseItemsWith (parseValFuel f) (rest.length + 1) [] rest
      else if c = '"' then
        match parseJString (c :: rest) with
        | some (s, rem) => some (.str s, rem)
        | Option.none => Option.none
      else if c = 't' then
        match startsWithChars ['r', 'u', 'e'] rest with
        | some rem => some (.bool true, rem)
        | Option.none => Option.none
      else if c = 'f' then
        match startsWithChars ['a', 'l', 's', 'e'] rest with
        | some rem => some (.bool false, rem)
        | Option.none => Option.none
      else if c = 'n' then
        match startsWithChars ['u', 'l', 'l'] rest with
        | some rem => some (.none', rem)
        | Option.none => Option.none
      else if c = 'N' then
        match startsWithChars ['a', 'N'] rest with
        | some rem => some (.float false "NaN", rem)
        | Option.none => Option.none
      else if c = 'I' then
        match startsWithChars ['n', 'f', 'i', 'n', 'i', 't', 'y'] rest with
        | some rem => some (.float false "Infinity", rem)
        | Option.none => Option.none
      else if c = '-' then
        match startsWithChars ['I', 'n', 'f', 'i', 'n', 'i', 't', 'y'] rest with
        | some rem => some (.float false "-Infinity", rem)
        | Option.none => parseNumber (c :: rest)
      else if isDigitC c then parseNumber (c :: rest)
      else Option.none

/-- json.loads on a character sequence: a single JSON value followed by
nothing but whitespace, else a decode failure (Option.none stands for
json.JSONDecodeError, which the sniffer catches). -/
def jsonLoads (cs : List Char) : Option PyVal :=
  match parseValFuel (cs.length + 1) cs with
  | some (v, rest) => if (skipWs rest).isEmpty then some v else Option.none
  | Option.none => Option.none

/-- UTF-8 bytes of an ASCII string, used to build the concrete file
contents appearing in the theorems below. -/
def encodeAscii (s : String) : List Nat := s.data.map Char.toNat

/-- get_first_json_object (source lines 72-82): decode the bytes as UTF-8,
take the first line, strip it, and parse it as JSON. The except clause
catches only json.JSONDecodeError and UnicodeDecodeError, which both become
a returned Option.none; the index access splitlines()[0] on content with no
lines raises an IndexError that is not caught and therefore escapes. -/
def get_first_json_object (file_content_bytes : List Nat) :
    Except PyExc (Option PyVal) :=
  match utf8Decode file_content_bytes with
  | Option.none => .ok Option.none
  | some file_content =>
    match splitlines file_content with
    | [] => .error PyExc.indexError
    | first_line :: _ =>
      match jsonLoads (pyStrip first_line) with
      | Option.none => .ok Option.none
      | some json_object => .ok (some json_object)

/-- get_model_from_json_obj (source lines 85-89):
body = json_object.get("body", \x7b\x7d) or \x7b\x7d; model =
body.get("model"). The attribute access .get raises AttributeError when the
receiver is not a dict (a non-dict JSON value, or a truthy non-dict body
field); that exception is not caught here and propagates to the handler. -/
def bodyOrEmpty (es : List (String × PyVal)) : PyVal :=
  let body := (dictLookup es "body").getD (PyVal.dict [])
  if pyTruthy body then body else PyVal.dict []

/-- Continuation of get_model_from_json_obj: the .get access on the body
value, which raises AttributeError on a non-dict receiver. -/
def get_model_from_json_obj (json_object : PyVal) : Except PyExc PyVal :=
  match json_object with
  | .dict es =>
    match bodyOrEmpty es with
    | .dict bs => .ok ((dictLookup bs "model").getD PyVal.none')
    | _ => .error PyExc.attributeError
  | _ => .error PyExc.attributeError

/-- The load-balanced pool collaborator (litellm.router.Router) at the only
interface this module uses: its set of known model names. -/
structure Router where
  get_model_names : List String

/-- is_known_model (source lines 92-104): False when the model is None or
the router is None, else membership of the model in the router's model
names (a Python in test of an arbitrary value against a list of strings,
which only a string equal to one of them passes). -/
def is_known_model (model : PyVal) (llm_router : Option Router) : Bool :=
  match model, llm_router with
  | .none', _ => false
  | _, Option.none => false
  | m, some r =>
    r.get_model_names.any (fun n => match m with | .str s => n = s | _ => false)

/-- The dispatch decision of create_file: route through the load-balanced
pool with the sniffed model, or through the fixed provider. -/
inductive RouteDecision where
  | pool (model : PyVal)
  | fixedProvider

/-- Source lines 195-210: the routing conditional of create_file, evaluated
with the values the surrounding code assigned to router_model and
is_router_model. When the pool branch is taken but the router object is
None, an HTTPException with status 500 is raised. -/
def finishRoute (enabled : Bool) (llm_router : Option Router)
    (router_model : PyVal) (is_router_model : Bool) :
    Except PyExc RouteDecision :=
  if enabled && is_router_model && !(pyIsNone router_model) then
    match llm_router with
    | Option.none =>
        .error (.httpException 500
          "LLM Router not initialized. Ensure models added to proxy.")
    | some _ => .ok (.pool router_model)
  else .ok .fixedProvider

/-- Source lines 182-210: the dispatch decision of create_file. When the
load-balancing flag is on, the first JSON object is sniffed from the file;
if it is truthy, the model is extracted from it and checked against the
router; the final conditional then picks the pool path or the fixed
provider path. Exceptions raised by the sniffing helpers propagate (they
are caught only by the handler boundary). -/
def createFileRoute (enabled : Bool) (llm_router : Option Router)
    (file_content : List Nat) : Except PyExc RouteDecision :=
  if enabled then
    match get_first_json_object file_content with
    | .error e => .error e
    | .ok json_obj =>
      match json_obj with
      | some j =>
        if pyTruthy j then
          match get_model_from_json_obj j with
          | .error e => .error e
          | .ok router_model =>
              finishRoute enabled llm_router router_model
                (is_known_model router_model llm_router)
        else finishRoute enabled llm_router PyVal.none' false
      | Option.none => finishRoute enabled llm_router PyVal.none' false
  else finishRoute enabled llm_router PyVal.none' false

/-- Modelled from the spec: get_secret_str, imported by the module from the
litellm package, whose sources are not part of the provided slice. Per the
spec it resolves a secret-indirection reference (a value carrying the
os.environ/ marker) to the corresponding environment-backed secret value.
The env parameter stands for the environment-backed secret store, mapping a
reference to its secret when one exists. -/
def get_secret_str (env : String → Option String) (ref : String) :
    Option String := env ref

/-- List-level test for the os.environ/ secret-indirection marker. -/
def listPre : List Char → List Char → Bool
  | [], _ => true
  | _ :: _, [] => false
  | a :: as, b :: bs => a = b && listPre as bs

/-- value.startswith("os.environ/"). -/
def strStarts (s marker : String) : Bool := listPre marker.data s.data

/-- The Python value stored for a resolved secret: get_secret_str returns
an optional string, and its result is stored as-is. -/
def secretVal (env : String → Option String) (s : String) : PyVal :=
  match get_secret_str env s with
  | some r => .str r
  | Option.none => .none'

/-- Source lines 51-53: one key/value pair of a settings group after the
resolution loop; string values carrying the marker are replaced by the
resolved secret, everything else is untouched. -/
def resolveSetting (env : String → Option String) (v : PyVal) : PyVal :=
  match v with
  | .str s => if strStarts s "os.environ/" then secretVal env s else .str s
  | _ => v

/-- The entries of one settings-group dict after the resolution loop. -/
def resolveEntries (env : String → Option String)
    (es : List (String × PyVal)) : List (String × PyVal) :=
  es.map (fun kv => (kv.1, resolveSetting env kv.2))

/-- Source lines 49-53: one element of the configuration list after the
loop body; only dict elements are processed. -/
def resolveElement (env : String → Option String) : PyVal → PyVal
  | .dict es => .dict (resolveEntries env es)
  | v => v

/-- The whole configuration list after the resolution loop. -/
def resolveList (env : String → Option String) (xs : List PyVal) :
    List PyVal := xs.map (resolveElement env)

/-- set_files_config (source lines 41-55), value-level denotation: the pair
of the call's outcome and the files_config global after the call. A None
input returns early leaving the global untouched; a non-list input raises
ValueError before the global is assigned, also leaving it untouched; a list
input has its marker-carrying string settings resolved and becomes the new
global. -/
def set_files_config (env : String → Option String) (config : PyVal)
    (files_config : Option (List PyVal)) :
    Except PyExc Unit × Option (List PyVal) :=
  match config with
  | .none' => (.ok (), files_config)
  | .list xs => (.ok (), some (resolveList env xs))
  | _ =>
      (.error (.valueError "invalid files config, expected a list is not a list"),
       files_config)

/-- Source lines 66-69: the scan of the configuration list. Python compares
setting.get("custom_llm_provider") against the provider string; only a dict
element with that key bound to an equal string matches. The attribute
access .get on a non-dict element raises AttributeError. -/
def scanConfig (custom_llm_provider : String) :
    List PyVal → Except PyExc (Option PyVal)
  | [] => .ok Option.none
  | setting :: rest =>
    match setting with
    | .dict es =>
      match dictLookup es "custom_llm_provider" with
      | some (.str s) =>
        if s = custom_llm_provider then .ok (some (.dict es))
        else scanConfig custom_llm_provider rest
      | _ => scanConfig custom_llm_provider rest
    | _ => .error PyExc.attributeError

/-- get_files_provider_config (source lines 58-69): None unconditionally
for vertex_ai; ValueError when the global configuration was never set;
otherwise the first matching record of the list, or None when no record
matches. -/
def get_files_provider_config (custom_llm_provider : String)
    (files_config : Option (List PyVal)) : Except PyExc (Option PyVal) :=
  if custom_llm_provider = "vertex_ai" then .ok Option.none
  else
    match files_config with
    | Option.none =>
        .error (.valueError "files_config is not set, set it on your config.yaml file.")
    | some cfg => scanConfig custom_llm_provider cfg

/-- The record predicate of the spec sentence "the first record whose
provider identifier equals x", used to compare the scan against the
specified behaviour. -/
def providerMatches (custom_llm_provider : String) : PyVal → Bool
  | .dict es =>
    match dictLookup es "custom_llm_provider" with
    | some (.str s) => decide (s = custom_llm_provider)
    | _ => false
  | _ => false

/-- The specified resolver result, written from the spec sentence: the
first record in list order whose provider identifier equals the requested
one, and no override when none matches. -/
def firstMatchingRecord (p : String) : List PyVal → Option PyVal
  | [] => Option.none
  | e :: rest =>
    if providerMatches p e then some e else firstMatchingRecord p rest

/-- Source lines 211-219, the fixed-provider branch of create_file: resolve
the provider configuration (exceptions propagate), merge it into the
outgoing request with dict.update when a record exists, and pop the
custom_llm_provider key. The typeError branch models dict.update on a
non-mapping and is unreachable, since the resolver only ever returns dict
records. -/
def fixedProviderRequest (custom_llm_provider : String)
    (files_config : Option (List PyVal))
    (create_file_request : List (String × PyVal)) :
    Except PyExc (List (String × PyVal)) :=
  match get_files_provider_config custom_llm_provider files_config with
  | .error e => .error e
  | .ok Option.none => .ok (dictPop create_file_request "custom_llm_provider")
  | .ok (some (PyVal.dict es)) =>
      .ok (dictPop (dictUpdate create_file_request es) "custom_llm_provider")
  | .ok (some _) => .error PyExc.typeError

/-- Heap addresses for the mutation-level model of set_files_config. -/
abbrev Addr := Nat

/-- Immediate (immutable) Python values in the heap model. -/
inductive HPrim where
  | none'
  | str (s : String)
  | int (n : Int)
  | bool (b : Bool)
deriving DecidableEq

/-- A Python reference: an immediate value or a pointer to a heap object. -/
inductive HVal where
  | prim (p : HPrim)
  | ref (a : Addr)
deriving DecidableEq

/-- Mutable heap objects reachable in set_files_config: the configuration
list and its settings-group dicts. -/
inductive HObj where
  | hlist (items : List HVal)
  | hdict (entries : List (String × HVal))

/-- The object heap: a finite map from addresses to objects. -/
abbrev Heap := List (Addr × HObj)

/-- Dereference an address. -/
def heapGet : Heap → Addr → Option HObj
  | [], _ => Option.none
  | (a', o) :: rest, a => if a' = a then some o else heapGet rest a

/-- Overwrite the object at an (existing) address in place; an absent
address is left alone (Python cannot mutate a nonexistent object). -/
def heapSet : Heap → Addr → HObj → Heap
  | [], _, _ => []
  | (a', o') :: rest, a, o =>
      if a' = a then (a, o) :: rest else (a', o') :: heapSet rest a o

/-- Heap-level resolution of one settings entry (source lines 51-53). -/
def hResolveEntry (env : String → Option String) :
    (String × HVal) → (String × HVal)
  | (k, .prim (.str s)) =>
      (k,
       if strStarts s "os.environ/" then
         match get_secret_str env s with
         | some r => .prim (.str r)
         | Option.none => .prim .none'
       else .prim (.str s))
  | kv => kv

/-- Heap-level loop body (source lines 49-53): a dict element has its
entries rewritten in place at its own address; any other element leaves the
heap untouched. -/
def resolveElementH (env : String → Option String) (h : Heap) (v : HVal) :
    Heap :=
  match v with
  | .ref a =>
    match heapGet h a with
    | some (.hdict es) => heapSet h a (.hdict (es.map (hResolveEntry env)))
    | _ => h
  | _ => h

/-- set_files_config (source lines 41-55), heap-level: the argument is a
Python reference; when it refers to a list object, the loop mutates each
settings-group dict in place through the references the list holds, and the
final assignment installs the argument reference itself - the caller's very
list object - as the files_config global. Returns the heap and the global
after the call. -/
def set_files_config_h (env : String → Option String) (config : HVal)
    (h : Heap) (g : Option HVal) : Except PyExc (Heap × Option HVal) :=
  match config with
  | .prim .none' => .ok (h, g)
  | .ref a =>
    match heapGet h a with
    | some (.hlist items) => .ok (items.foldl (resolveElementH env) h, some (.ref a))
    | _ =>
        .error (.valueError "invalid files config, expected a list is not a list")
  | _ =>
      .error (.valueError "invalid files config, expected a list is not a list")

/-- The raw transport response wrapped by a successful get-content backend
result (an httpx.Response at the interface this module uses: body bytes,
status code, headers). -/
structure HttpxResponse where
  content : List Nat
  status_code : Nat
  headers : List (String × String)

/-- A successful backend result of the get-content call, which may or may
not wrap a raw transport response (getattr(response, "response", None)). -/
structure FileContentResult where
  response : Option HttpxResponse

/-- The fastapi Response the handler returns for get-content. -/
structure FastAPIResponse where
  content : List Nat
  status_code : Nat
  headers : List (String × String)

/-- Source lines 361-371: after a successful backend call, get_file_content
reads the wrapped transport response; when it is absent a ValueError is
raised (caught only by the handler boundary), and when it is present its
body, status code and headers are passed through verbatim. The str(response)
tail of the Python error message is elided, since the model does not carry a
printable representation of the backend result. -/
def get_file_content_result (r : FileContentResult) :
    Except PyExc FastAPIResponse :=
  match r.response with
  | Option.none =>
      .error (.valueError "Invalid response - response.response is None")
  | some hr =>
      .ok { content := hr.content, status_code := hr.status_code,
            headers := hr.headers }

/-- The get-content handler: its result step wrapped in the shared
exception-normalization boundary. -/
def get_file_content_handler (r : FileContentResult) :
    Except ProxyException FastAPIResponse :=
  runHandler (get_file_content_result r)

/-- One settings entry no longer carries the secret-indirection marker. -/
def entryMarkerFree : (String × PyVal) → Bool
  | (_, .str s) => !(strStarts s "os.environ/")
  | _ => true

/-- One configuration element no longer carries the marker anywhere the
resolution loop would look. -/
def elementMarkerFree : PyVal → Bool
  | .dict es => es.all entryMarkerFree
  | _ => true

/-- A configuration list no longer carries the marker anywhere the
resolution loop would look. -/
def configMarkerFree (xs : List PyVal) : Bool := xs.all elementMarkerFree

/-- Sample environment-backed secret store used for concrete instances:
exactly one secret, bound to the reference os.environ/KEY. -/
def envSample : String → Option String :=
  fun r => if r = "os.environ/KEY" then some "resolved-secret" else Option.none

theorem dictLookup_dictSet_self (d : List (String × PyVal)) (k : String)
    (v : PyVal) : dictLookup (dictSet d k v) k = some v := by
  induction d with
  | nil => simp [dictSet, dictLookup]
  | cons kv rest ih =>
    obtain ⟨k', v'⟩ := kv
    by_cases h : k' = k
    · simp [dictSet, h, dictLookup]
    · simp [dictSet, h, dictLookup, ih]

theorem dictLookup_dictSet_ne (d : List (String × PyVal)) (k k' : String)
    (v : PyVal) (h : k' ≠ k) :
    dictLookup (dictSet d k v) k' = dictLookup d k' := by
  induction d with
  | nil =>
    simp only [dictSet, dictLookup]
    rw [if_neg (Ne.symm h)]
  | cons kv rest ih =>
    obtain ⟨k1, v1⟩ := kv
    by_cases h1 : k1 = k
    · subst h1
      simp only [dictSet, if_pos rfl, dictLookup]
      rw [if_neg (Ne.symm h), if_neg (Ne.symm h)]
    · simp only [dictSet, if_neg h1, dictLookup]
      by_cases h2 : k1 = k'
      · rw [if_pos h2, if_pos h2]
      · rw [if_neg h2, if_neg h2, ih]

theorem dictLookup_eq_none_iff (e : List (String × PyVal)) (k : String) :
    dictLookup e k = Option.none ↔ k ∉ e.map Prod.fst := by
  induction e with
  | nil => simp [dictLookup]
  | cons kv rest ih =>
    obtain ⟨k', v'⟩ := kv
    simp only [dictLookup, List.map, List.mem_cons, not_or]
    by_cases h : k' = k
    · subst h
      simp
    · rw [if_neg h]
      have h' : ¬ k = k' := Ne.symm h
      simp [ih, h']

theorem dictUpdate_cons (d : List (String × PyVal)) (kv : String × PyVal)
    (e : List (String × PyVal)) :
    dictUpdate d (kv :: e) = dictUpdate (dictSet d kv.1 kv.2) e := rfl

theorem dictLookup_dictUpdate_not_mem (d e : List (String × PyVal))
    (k : String) (h : k ∉ e.map Prod.fst) :
    dictLookup (dictUpdate d e) k = dictLookup d k := by
  induction e generalizing d with
  | nil => rfl
  | cons kv rest ih =>
    obtain ⟨k1, v1⟩ := kv
    simp only [List.map, List.mem_cons, not_or] at h
    rw [dictUpdate_cons, ih _ h.2, dictLookup_dictSet_ne _ _ _ _ h.1]

theorem dictLookup_dictUpdate_mem (d e : List (String × PyVal))
    (k : String) (v : PyVal) (hnd : (e.map Prod.fst).Nodup)
    (h : dictLookup e k = some v) :
    dictLookup (dictUpdate d e) k = some v := by
  induction e generalizing d with
  | nil => simp [dictLookup] at h
  | cons kv rest ih =>
    obtain ⟨k1, v1⟩ := kv
    simp only [List.map, List.nodup_cons] at hnd
    by_cases h1 : k1 = k
    · subst h1
      have hv : v1 = v := by simpa [dictLookup] using h
      subst hv
      rw [dictUpdate_cons, dictLookup_dictUpdate_not_mem _ _ _ hnd.1,
        dictLookup_dictSet_self]
    · simp only [dictLookup, if_neg h1] at h
      rw [dictUpdate_cons]
      exact ih _ hnd.2 h

theorem dictLookup_dictPop_self (d : List (String × PyVal)) (k : String) :
    dictLookup (dictPop d k) k = Option.none := by
  induction d with
  | nil => simp [dictPop, dictLookup]
  | cons kv rest ih =>
    obtain ⟨k', v'⟩ := kv
    by_cases h : k' = k
    · simp [dictPop, h, ih]
    · simp [dictPop, h, dictLookup, ih]

theorem dictLookup_dictPop_ne (d : List (String × PyVal)) (k k' : String)
    (h : k' ≠ k) : dictLookup (dictPop d k) k' = dictLookup d k' := by
  induction d with
  | nil => rfl
  | cons kv rest ih =>
    obtain ⟨k1, v1⟩ := kv
    by_cases h1 : k1 = k
    · subst h1
      have hp : dictPop ((k1, v1) :: rest) k1 = dictPop rest k1 := by
        simp [dictPop]
      have hl : dictLookup ((k1, v1) :: rest) k' = dictLookup rest k' := by
        simp [dictLookup, Ne.symm h]
      rw [hp, hl, ih]
    · simp only [dictPop, if_neg h1, dictLookup]
      by_cases h2 : k1 = k'
      · rw [if_pos h2, if_pos h2]
      · rw [if_neg h2, if_neg h2, ih]

theorem get_first_json_object_error_shape (bs : List Nat) (e : PyExc)
    (h : get_first_json_object bs = .error e) : e = PyExc.indexError := by
  unfold get_first_json_object at h
  split at h
  · cases h
  · split at h
    · exact (Except.error.inj h).symm
    · split at h <;> cases h

theorem get_model_from_json_obj_error_shape (j : PyVal) (e : PyExc)
    (h : get_model_from_json_obj j = .error e) : e = PyExc.attributeError := by
  unfold get_model_from_json_obj at h
  split at h
  · split at h
    · cases h
    · exact (Except.error.inj h).symm
  · exact (Except.error.inj h).symm

theorem is_known_model_none_router (m : PyVal) :
    is_known_model m Option.none = false := by
  cases m <;> rfl

theorem finishRoute_not_router_model (enabled : Bool)
    (llm_router : Option Router) (m : PyVal) :
    finishRoute enabled llm_router m false = .ok .fixedProvider := by
  simp [finishRoute]

theorem scanConfig_eq_firstMatchingRecord (p : String) (cfg : List PyVal)
    (h : cfg.all isDictV = true) :
    scanConfig p cfg = .ok (firstMatchingRecord p cfg) := by
  induction cfg with
  | nil => rfl
  | cons e rest ih =>
    simp only [List.all_cons, Bool.and_eq_true] at h
    obtain ⟨he, hrest⟩ := h
    cases e with
    | dict es =>
      cases hl : dictLookup es "custom_llm_provider" with
      | none =>
        simp [scanConfig, firstMatchingRecord, providerMatches, hl, ih hrest]
      | some v =>
        cases v with
        | str s =>
          by_cases hs : s = p
          · simp [scanConfig, firstMatchingRecord, providerMatches, hl, hs]
          · simp [scanConfig, firstMatchingRecord, providerMatches, hl, hs,
              ih hrest]
        | none' =>
          simp [scanConfig, firstMatchingRecord, providerMatches, hl, ih hrest]
        | bool b =>
          simp [scanConfig, firstMatchingRecord, providerMatches, hl, ih hrest]
        | int n =>
          simp [scanConfig, firstMatchingRecord, providerMatches, hl, ih hrest]
        | float z l =>
          simp [scanConfig, firstMatchingRecord, providerMatches, hl, ih hrest]
        | list xs =>
          simp [scanConfig, firstMatchingRecord, providerMatches, hl, ih hrest]
        | dict es2 =>
          simp [scanConfig, firstMatchingRecord, providerMatches, hl, ih hrest]
    | none' => simp [isDictV] at he
    | bool b => simp [isDictV] at he
    | int n => simp [isDictV] at he
    | float z l => simp [isDictV] at he
    | str s => simp [isDictV] at he
    | list xs => simp [isDictV] at he

theorem dictLookup_resolveEntries (env : String → Option String)
    (es : List (String × PyVal)) (k s : String)
    (h : dictLookup es k = some (.str s))
    (hm : strStarts s "os.environ/" = true) :
    dictLookup (resolveEntries env es) k = some (secretVal env s) := by
  induction es with
  | nil => simp [dictLookup] at h
  | cons kv rest ih =>
    obtain ⟨k', v'⟩ := kv
    by_cases hk : k' = k
    · subst hk
      have hv : v' = .str s := by simpa [dictLookup] using h
      subst hv
      simp [resolveEntries, dictLookup, resolveSetting, hm]
    · simp only [dictLookup, if_neg hk] at h
      simpa [resolveEntries, dictLookup, hk] using ih h

theorem resolveEntries_markerFree_id (env : String → Option String)
    (es : List (String × PyVal)) (h : es.all entryMarkerFree = true) :
    resolveEntries env es = es := by
  induction es with
  | nil => rfl
  | cons kv rest ih =>
    simp only [List.all_cons, Bool.and_eq_true] at h
    obtain ⟨hk, hr⟩ := h
    obtain ⟨k, v⟩ := kv
    cases v <;>
      simp_all [resolveEntries, resolveSetting, entryMarkerFree]

theorem resolveList_markerFree_id (env : String → Option String)
    (xs : List PyVal) (h : configMarkerFree xs = true) :
    resolveList env xs = xs := by
  induction xs with
  | nil => rfl
  | cons x rest ih =>
    simp only [configMarkerFree, List.all_cons, Bool.and_eq_true] at h
    obtain ⟨hx, hr⟩ := h
    cases x <;>
      simp_all [resolveList, resolveElement, elementMarkerFree,
        resolveEntries_markerFree_id, configMarkerFree]

theorem heapGet_heapSet_ne (h : Heap) (a x : Addr) (o : HObj) (hax : a ≠ x) :
    heapGet (heapSet h a o) x = heapGet h x := by
  induction h with
  | nil => rfl
  | cons ao rest ih =>
    obtain ⟨a', o'⟩ := ao
    by_cases h1 : a' = a
    · subst h1
      simp only [heapSet, if_pos rfl, heapGet]
      rw [if_neg hax, if_neg hax]
    · simp only [heapSet, if_neg h1, heapGet]
      by_cases h2 : a' = x
      · rw [if_pos h2, if_pos h2]
      · rw [if_neg h2, if_neg h2, ih]

theorem heapGet_heapSet_self (h : Heap) (a : Addr) (o o' : HObj)
    (hp : heapGet h a = some o') : heapGet (heapSet h a o) a = some o := by
  induction h with
  | nil => simp [heapGet] at hp
  | cons ao rest ih =>
    obtain ⟨a', o1⟩ := ao
    by_cases h1 : a' = a
    · subst h1
      simp [heapSet, heapGet]
    · simp only [heapSet, if_neg h1, heapGet, if_neg h1]
      simp only [heapGet, if_neg h1] at hp
      exact ih hp

theorem heapGet_heapSet_isSome (h : Heap) (a x : Addr) (o : HObj) :
    (heapGet (heapSet h a o) x).isSome = (heapGet h x).isSome := by
  induction h with
  | nil => rfl
  | cons ao rest ih =>
    obtain ⟨a', o'⟩ := ao
    by_cases h1 : a' = a
    · subst h1
      simp only [heapSet, if_pos rfl, heapGet]
      by_cases h2 : a' = x
      · rw [if_pos h2, if_pos h2]
        rfl
      · rw [if_neg h2, if_neg h2]
    · simp only [heapSet, if_neg h1, heapGet]
      by_cases h2 : a' = x
      · rw [if_pos h2, if_pos h2]
      · rw [if_neg h2, if_neg h2, ih]

theorem resolveElementH_preserves_other (env : String → Option String)
    (h : Heap) (v : HVal) (d : Addr) (hv : v ≠ HVal.ref d) :
    heapGet (resolveElementH env h v) d = heapGet h d := by
  cases v with
  | prim p => rfl
  | ref a =>
    have had : a ≠ d := fun he => hv (by rw [he])
    simp only [resolveElementH]
    cases hg : heapGet h a with
    | none => rfl
    | some o =>
      cases o with
      | hdict es => exact heapGet_heapSet_ne h a d _ had
      | hlist items => rfl

theorem resolveElementH_isSome (env : String → Option String) (h : Heap)
    (v : HVal) (x : Addr) :
    (heapGet (resolveElementH env h v) x).isSome = (heapGet h x).isSome := by
  cases v with
  | prim p => rfl
  | ref a =>
    simp only [resolveElementH]
    cases hg : heapGet h a with
    | none => rfl
    | some o =>
      cases o with
      | hdict es => exact heapGet_heapSet_isSome h a x _
      | hlist items => rfl

theorem foldl_resolveElementH_not_mem (env : String → Option String)
    (items : List HVal) (h : Heap) (d : Addr) (hd : HVal.ref d ∉ items) :
    heapGet (items.foldl (resolveElementH env) h) d = heapGet h d := by
  induction items generalizing h with
  | nil => rfl
  | cons v rest ih =>
    simp only [List.mem_cons, not_or] at hd
    rw [List.foldl_cons, ih _ hd.2,
      resolveElementH_preserves_other env h v d (fun he => hd.1 he.symm)]

theorem foldl_resolveElementH_isSome (env : String → Option String)
    (items : List HVal) (h : Heap) (x : Addr) :
    (heapGet (items.foldl (resolveElementH env) h) x).isSome =
      (heapGet h x).isSome := by
  induction items generalizing h with
  | nil => rfl
  | cons v rest ih =>
    rw [List.foldl_cons, ih, resolveElementH_isSome]

theorem foldl_resolveElementH_mem (env : String → Option String)
    (items : List HVal) (h : Heap) (d : Addr) (es : List (String × HVal))
    (hnd : items.Nodup) (hmem : HVal.ref d ∈ items)
    (hget : heapGet h d = some (.hdict es)) :
    heapGet (items.foldl (resolveElementH env) h) d =
      some (.hdict (es.map (hResolveEntry env))) := by
  induction items generalizing h with
  | nil => cases hmem
  | cons v rest ih =>
    rw [List.foldl_cons]
    have hnd' := List.nodup_cons.mp hnd
    by_cases hveq : v = HVal.ref d
    · subst hveq
      have h1 : resolveElementH env h (HVal.ref d) =
          heapSet h d (HObj.hdict (es.map (hResolveEntry env))) := by
        simp only [resolveElementH]
        rw [hget]
      rw [h1, foldl_resolveElementH_not_mem env rest _ d hnd'.1]
      exact heapGet_heapSet_self h d _ _ hget
    · rcases List.mem_cons.mp hmem with hv | hv
      · exact absurd hv.symm hveq
      · have hget' : heapGet (resolveElementH env h v) d = some (.hdict es) := by
          rw [resolveElementH_preserves_other env h v d hveq]
          exact hget
        exact ih _ hnd'.2 hv hget'

/-- C1 counterexample: the claim says request-supplied values take
precedence on keys present in both the request and the configuration
record. At this concrete input both the request and the matching
configuration record carry the key purpose, and the merged outgoing
request carries the configuration value, not the request value: the merge
is dict.update, under which the configuration overwrites the request. -/
theorem fixedProvider_request_precedence_counterexample :
    fixedProviderRequest "openai"
      (some [PyVal.dict [("custom_llm_provider", PyVal.str "openai"),
                         ("purpose", PyVal.str "config-purpose")]])
      [("file", PyVal.str "filedata"), ("purpose", PyVal.str "batch")] =
      Except.ok [("file", PyVal.str "filedata"),
                 ("purpose", PyVal.str "config-purpose")] ∧
    asStr (dictLookup [("file", PyVal.str "filedata"),
        ("purpose", PyVal.str "batch")] "purpose") = some "batch" ∧
    asStr (dictLookup [("file", PyVal.str "filedata"),
        ("purpose", PyVal.str "config-purpose")] "purpose") =
      some "config-purpose" ∧
    (("config-purpose" : String) == "batch") = false :=
  ⟨rfl, rfl, rfl, by decide⟩

/-- C1 amended: when a configuration record exists for the provider, the
merged outgoing request keeps the request value only at keys the
configuration record leaves absent; on every key present in both, the
configuration value takes precedence (dict.update semantics); and the
provider-identifier key is absent from the merged request after the
merge. -/
theorem fixedProvider_merge_semantics (req cfgEs : List (String × PyVal))
    (p : String) (st : Option (List PyVal))
    (hfind : get_files_provider_config p st =
      Except.ok (some (PyVal.dict cfgEs)))
    (hnd : (cfgEs.map Prod.fst).Nodup) :
    ∃ merged, fixedProviderRequest p st req = Except.ok merged ∧
      (∀ k, k ≠ "custom_llm_provider" → dictLookup cfgEs k = Option.none →
        dictLookup merged k = dictLookup req k) ∧
      (∀ k v, k ≠ "custom_llm_provider" → dictLookup cfgEs k = some v →
        dictLookup merged k = some v) ∧
      dictLookup merged "custom_llm_provider" = Option.none := by
  refine ⟨dictPop (dictUpdate req cfgEs) "custom_llm_provider", ?_, ?_, ?_, ?_⟩
  · unfold fixedProviderRequest
    rw [hfind]
  · intro k hk hnone
    rw [dictLookup_dictPop_ne _ _ _ hk,
      dictLookup_dictUpdate_not_mem _ _ _
        ((dictLookup_eq_none_iff cfgEs k).mp hnone)]
  · intro k v hk hsome
    rw [dictLookup_dictPop_ne _ _ _ hk,
      dictLookup_dictUpdate_mem _ _ _ _ hnd hsome]
  · exact dictLookup_dictPop_self _ _

/-- C1 witness: the amended merge theorem applied at a concrete provider,
configuration record and request. -/
theorem fixedProvider_merge_semantics_witness :
    ∃ merged, fixedProviderRequest "openai"
        (some [PyVal.dict [("custom_llm_provider", PyVal.str "openai"),
                           ("api_base", PyVal.str "https://x")]])
        [("file", PyVal.str "filedata"), ("purpose", PyVal.str "batch")] =
      Except.ok merged ∧
      dictLookup merged "custom_llm_provider" = Option.none := by
  obtain ⟨m, h1, _, _, h4⟩ :=
    fixedProvider_merge_semantics
      [("file", PyVal.str "filedata"), ("purpose", PyVal.str "batch")]
      [("custom_llm_provider", PyVal.str "openai"),
       ("api_base", PyVal.str "https://x")]
      "openai"
      (some [PyVal.dict [("custom_llm_provider", PyVal.str "openai"),
                         ("api_base", PyVal.str "https://x")]])
      rfl (by decide)
  exact ⟨m, h1, h4⟩

/-- C2 counterexample: feature flag on, pool object unavailable, and the
file's first line declares gpt-4, a model the pool does know when it is
available (second conjunct: with a router knowing gpt-4, the very same file
is routed to the pool). The claim says the request fails with a 500-class
router-initialization error and is never routed to the fixed-provider path;
the code instead silently routes it to the fixed-provider path. -/
theorem route_pool_unavailable_counterexample :
    createFileRoute true Option.none
      (encodeAscii "\x7b\"body\": \x7b\"model\": \"gpt-4\"\x7d\x7d") =
      Except.ok RouteDecision.fixedProvider ∧
    createFileRoute true (some { get_model_names := ["gpt-4"] })
      (encodeAscii "\x7b\"body\": \x7b\"model\": \"gpt-4\"\x7d\x7d") =
      Except.ok (RouteDecision.pool (PyVal.str "gpt-4")) :=
  ⟨rfl, rfl⟩

/-- C2 amended: when the pool object is unavailable, is_known_model is
false for every sniffed model, so no create-file request is ever routed to
the pool and the 500 router-initialization error is never raised; every
such request either takes the fixed-provider path or fails with the
sniffing helpers' own uncaught exception (IndexError on an empty file,
AttributeError on a truthy non-object first line or body). -/
theorem route_pool_unavailable_falls_back (file_content : List Nat) :
    (∀ m, is_known_model m Option.none = false) ∧
    (createFileRoute true Option.none file_content =
        Except.ok RouteDecision.fixedProvider ∨
      createFileRoute true Option.none file_content =
        Except.error PyExc.indexError ∨
      createFileRoute true Option.none file_content =
        Except.error PyExc.attributeError) := by
  refine ⟨is_known_model_none_router, ?_⟩
  cases hj : get_first_json_object file_content with
  | error e =>
    have he := get_first_json_object_error_shape file_content e hj
    subst he
    exact Or.inr (Or.inl (by simp [createFileRoute, hj]))
  | ok jopt =>
    cases jopt with
    | none =>
      exact Or.inl (by
        simp [createFileRoute, hj, finishRoute_not_router_model])
    | some j =>
      by_cases ht : pyTruthy j = true
      · cases hm : get_model_from_json_obj j with
        | error e =>
          have he := get_model_from_json_obj_error_shape j e hm
          subst he
          exact Or.inr (Or.inr (by simp [createFileRoute, hj, ht, hm]))
        | ok m =>
          exact Or.inl (by
            simp [createFileRoute, hj, ht, hm, is_known_model_none_router,
              finishRoute_not_router_model])
      · exact Or.inl (by
          simp [createFileRoute, hj, ht, finishRoute_not_router_model])

/-- C3: the sniffer is claimed never to raise, returning no-model-found on
every failure including the empty byte string. On the empty byte string the
code instead raises an uncaught IndexError (splitlines()[0] on content with
no lines; the except clause catches only JSONDecodeError and
UnicodeDecodeError). Decode failures and parse failures of nonempty inputs
are returned as None as claimed. -/
theorem get_first_json_object_empty_input_raises :
    get_first_json_object [] = Except.error PyExc.indexError ∧
    get_first_json_object [0xff] = Except.ok Option.none ∧
    get_first_json_object (encodeAscii "not json") = Except.ok Option.none :=
  ⟨rfl, rfl, rfl⟩

/-- C4: with the load-balancing feature flag disabled, the dispatch
decision is the fixed-provider path for every router state and every file
content; the sniffer is never consulted (the result does not depend on the
file bytes, and no sniffing exception can surface). -/
theorem createFileRoute_flag_disabled (llm_router : Option Router)
    (file_content : List Nat) :
    createFileRoute false llm_router file_content =
      Except.ok RouteDecision.fixedProvider := by
  simp [createFileRoute, finishRoute]

/-- C5: the provider configuration resolver returns no override for
vertex_ai unconditionally; for any other provider it fails with the
ConfigError ValueError when no configuration was ever set; and with a
configuration of settings-group records set, it returns the first record in
list order whose provider identifier equals the requested one, and no
override when none matches. -/
theorem get_files_provider_config_contract (p : String)
    (st : Option (List PyVal)) (cfg : List PyVal) :
    (get_files_provider_config "vertex_ai" st = Except.ok Option.none) ∧
    (p ≠ "vertex_ai" →
      get_files_provider_config p Option.none =
        Except.error (PyExc.valueError
          "files_config is not set, set it on your config.yaml file.")) ∧
    (p ≠ "vertex_ai" → cfg.all isDictV = true →
      get_files_provider_config p (some cfg) =
        Except.ok (firstMatchingRecord p cfg)) := by
  refine ⟨rfl, ?_, ?_⟩
  · intro hp
    simp [get_files_provider_config, hp]
  · intro hp hall
    simp only [get_files_provider_config, if_neg hp]
    exact scanConfig_eq_firstMatchingRecord p cfg hall

/-- C5 witness: the resolver contract applied at a concrete provider with
no configuration and with a two-record configuration whose second record
matches. -/
theorem get_files_provider_config_contract_witness :
    get_files_provider_config "azure" Option.none =
      Except.error (PyExc.valueError
        "files_config is not set, set it on your config.yaml file.") ∧
    get_files_provider_config "azure"
        (some [PyVal.dict [("custom_llm_provider", PyVal.str "openai")],
               PyVal.dict [("custom_llm_provider", PyVal.str "azure"),
                           ("api_base", PyVal.str "https://x")]]) =
      Except.ok (firstMatchingRecord "azure"
        [PyVal.dict [("custom_llm_provider", PyVal.str "openai")],
         PyVal.dict [("custom_llm_provider", PyVal.str "azure"),
                     ("api_base", PyVal.str "https://x")]]) := by
  constructor
  · exact (get_files_provider_config_contract "azure" Option.none []).2.1
      (by decide)
  · exact (get_files_provider_config_contract "azure" Option.none
      [PyVal.dict [("custom_llm_provider", PyVal.str "openai")],
       PyVal.dict [("custom_llm_provider", PyVal.str "azure"),
                   ("api_base", PyVal.str "https://x")]]).2.2 (by decide) rfl

/-- C6: storing an absent (None) configuration is a no-op on the existing
snapshot (not a reset), and storing a present non-list value fails with the
ConfigError ValueError while also leaving the snapshot unchanged. -/
theorem set_files_config_input_guards (env : String → Option String)
    (v : PyVal) (st : Option (List PyVal)) :
    (set_files_config env PyVal.none' st = (Except.ok (), st)) ∧
    (pyIsList v = false → v ≠ PyVal.none' →
      set_files_config env v st =
        (Except.error (PyExc.valueError
          "invalid files config, expected a list is not a list"), st)) := by
  refine ⟨rfl, ?_⟩
  intro hl hn
  cases v <;> first
    | rfl
    | (exact absurd rfl hn)
    | (simp [pyIsList] at hl)

/-- C6 witness: the guards applied at a concrete non-list input and a
concrete existing snapshot. -/
theorem set_files_config_input_guards_witness :
    (set_files_config envSample PyVal.none'
        (some [PyVal.dict [("a", PyVal.int 1)]]) =
      (Except.ok (), some [PyVal.dict [("a", PyVal.int 1)]])) ∧
    (set_files_config envSample (PyVal.str "nope")
        (some [PyVal.dict [("a", PyVal.int 1)]]) =
      (Except.error (PyExc.valueError
        "invalid files config, expected a list is not a list"),
       some [PyVal.dict [("a", PyVal.int 1)]])) := by
  constructor
  · exact (set_files_config_input_guards envSample (PyVal.str "nope")
      (some [PyVal.dict [("a", PyVal.int 1)]])).1
  · exact (set_files_config_input_guards envSample (PyVal.str "nope")
      (some [PyVal.dict [("a", PyVal.int 1)]])).2 rfl
      (by intro h; cases h)

/-- C7: storing a configuration list resolves it pointwise; every dict
settings group of the input appears resolved in the stored snapshot; every
string-valued setting carrying the secret-indirection marker is replaced by
the environment-backed secret value; and when the resolved output carries
no marker anywhere, storing it a second time leaves it unchanged (values
without the marker are left as-is, so the resolution is idempotent on
already-resolved configurations). -/
theorem set_files_config_secret_resolution (env : String → Option String)
    (xs : List PyVal) (st : Option (List PyVal)) :
    (set_files_config env (PyVal.list xs) st =
      (Except.ok (), some (resolveList env xs))) ∧
    (∀ es, PyVal.dict es ∈ xs →
      PyVal.dict (resolveEntries env es) ∈ resolveList env xs) ∧
    (∀ es k s, dictLookup es k = some (PyVal.str s) →
      strStarts s "os.environ/" = true →
      dictLookup (resolveEntries env es) k = some (secretVal env s)) ∧
    (configMarkerFree (resolveList env xs) = true →
      set_files_config env (PyVal.list (resolveList env xs))
          (some (resolveList env xs)) =
        (Except.ok (), some (resolveList env xs))) := by
  refine ⟨rfl, ?_, ?_, ?_⟩
  · intro es hmem
    have he : resolveElement env (PyVal.dict es) =
        PyVal.dict (resolveEntries env es) := rfl
    rw [← he]
    exact List.mem_map_of_mem _ hmem
  · intro es k s h hm
    exact dictLookup_resolveEntries env es k s h hm
  · intro hmf
    have hid : resolveList env (resolveList env xs) = resolveList env xs :=
      resolveList_markerFree_id env _ hmf
    simp [set_files_config, hid]

/-- C7 witness: the resolution theorem applied at a concrete environment
and a one-record configuration carrying a marker-prefixed value; the
resolved value is the environment-backed secret, and re-storing the
resolved output is the identity. -/
theorem set_files_config_secret_resolution_witness :
    dictLookup (resolveEntries envSample
        [("api_key", PyVal.str "os.environ/KEY")]) "api_key" =
      some (secretVal envSample "os.environ/KEY") ∧
    set_files_config envSample
        (PyVal.list (resolveList envSample
          [PyVal.dict [("api_key", PyVal.str "os.environ/KEY")]]))
        (some (resolveList envSample
          [PyVal.dict [("api_key", PyVal.str "os.environ/KEY")]])) =
      (Except.ok (), some (resolveList envSample
        [PyVal.dict [("api_key", PyVal.str "os.environ/KEY")]])) := by
  have h := set_files_config_secret_resolution envSample
    [PyVal.dict [("api_key", PyVal.str "os.environ/KEY")]] Option.none
  exact ⟨h.2.2.1 [("api_key", PyVal.str "os.environ/KEY")] "api_key"
      "os.environ/KEY" rfl rfl,
    h.2.2.2 rfl⟩

/-- C8: for a get-content request whose backend call succeeds, a missing
wrapped transport response is raised as a ValueError that the handler
boundary normalizes to a 500 GatewayError whose message reports the invalid
response; a present wrapped transport response has its body, status code
and headers passed through verbatim. -/
theorem get_file_content_passthrough (r : FileContentResult) :
    (r.response = Option.none →
      get_file_content_handler r = Except.error
        { message := "Invalid response - response.response is None",
          type := "None", param := "None", code := 500 }) ∧
    (∀ hr, r.response = some hr →
      get_file_content_handler r = Except.ok
        { content := hr.content, status_code := hr.status_code,
          headers := hr.headers }) := by
  obtain ⟨resp⟩ := r
  constructor
  · intro h
    subst h
    rfl
  · intro hr h
    subst h
    rfl

/-- C8 witness: the passthrough theorem applied at a backend result with no
wrapped transport response and at one wrapping a concrete response. -/
theorem get_file_content_passthrough_witness :
    get_file_content_handler { response := Option.none } = Except.error
      { message := "Invalid response - response.response is None",
        type := "None", param := "None", code := 500 } ∧
    get_file_content_handler
        { response := some { content := [1, 2], status_code := 200,
                             headers := [("h", "v")] } } =
      Except.ok { content := [1, 2], status_code := 200,
                  headers := [("h", "v")] } := by
  constructor
  · exact (get_file_content_passthrough { response := Option.none }).1 rfl
  · exact (get_file_content_passthrough
      { response := some { content := [1, 2], status_code := 200,
                           headers := [("h", "v")] } }).2
      { content := [1, 2], status_code := 200, headers := [("h", "v")] } rfl

/-- C9: every exception crossing the shared handler boundary is converted
to a normalized ProxyException with message, type, param and code; an
exception already carrying a transport-level status code or message has it
preserved, and an exception carrying no status code is assigned the default
500. -/
theorem handler_error_normalization (e : PyExc) :
    runHandler (Except.error e : Except PyExc Unit) =
      Except.error (normalizeException e) ∧
    (∀ c, excStatusCode e = some c → (normalizeException e).code = c) ∧
    (excStatusCode e = Option.none → (normalizeException e).code = 500) ∧
    (∀ m, excMessageAttr e = some m → (normalizeException e).message = m) := by
  refine ⟨rfl, ?_, ?_, ?_⟩
  · intro c hc
    cases e <;> simp_all [excStatusCode, normalizeException]
  · intro hc
    cases e <;> simp_all [excStatusCode, normalizeException]
  · intro m hm
    cases e <;> simp_all [excMessageAttr, normalizeException]

/-- C9 witness: the normalization theorem applied at a backend exception
carrying a transport status code and message, and at a ValueError carrying
neither. -/
theorem handler_error_normalization_witness :
    (normalizeException (PyExc.backendExc (some 402) (some "quota")
        Option.none Option.none "err")).code = 402 ∧
    (normalizeException (PyExc.valueError "boom")).code = 500 ∧
    (normalizeException (PyExc.backendExc (some 402) (some "quota")
        Option.none Option.none "err")).message = "quota" := by
  refine ⟨?_, ?_, ?_⟩
  · exact (handler_error_normalization (PyExc.backendExc (some 402)
      (some "quota") Option.none Option.none "err")).2.1 402 rfl
  · exact (handler_error_normalization (PyExc.valueError "boom")).2.2.1 rfl
  · exact (handler_error_normalization (PyExc.backendExc (some 402)
      (some "quota") Option.none Option.none "err")).2.2.2 "quota" rfl

/-- C10: the heap-level store call resolves secrets by mutating the
caller's settings-group dicts in place (each dict referenced by the list is
rewritten at its own address) and installs the caller's very list reference
as the process-wide global; no object is copied (the heap's domain of
allocated addresses is unchanged). -/
theorem set_files_config_h_in_place_aliasing (env : String → Option String)
    (h : Heap) (g : Option HVal) (a : Addr) (items : List HVal)
    (hnd : items.Nodup) (ha : heapGet h a = some (HObj.hlist items)) :
    ∃ h', set_files_config_h env (HVal.ref a) h g =
        Except.ok (h', some (HVal.ref a)) ∧
      (∀ x, (heapGet h' x).isSome = (heapGet h x).isSome) ∧
      (∀ d es, HVal.ref d ∈ items → heapGet h d = some (HObj.hdict es) →
        heapGet h' d = some (HObj.hdict (es.map (hResolveEntry env)))) := by
  refine ⟨items.foldl (resolveElementH env) h, ?_, ?_, ?_⟩
  · simp [set_files_config_h, ha]
  · intro x
    exact foldl_resolveElementH_isSome env items h x
  · intro d es hmem hget
    exact foldl_resolveElementH_mem env items h d es hnd hmem hget

/-- C10 witness: the aliasing theorem applied at a concrete two-object heap
whose list at address 0 references a settings dict at address 1 carrying a
marker-prefixed value: the global becomes the reference to address 0 itself
and the dict at address 1 holds the resolved secret in place. -/
theorem set_files_config_h_in_place_aliasing_witness :
    ∃ h', set_files_config_h envSample (HVal.ref 0)
        [(0, HObj.hlist [HVal.ref 1]),
         (1, HObj.hdict [("api_key", HVal.prim (HPrim.str "os.environ/KEY"))])]
        Option.none =
        Except.ok (h', some (HVal.ref 0)) ∧
      heapGet h' 1 = some (HObj.hdict
        ([("api_key", HVal.prim (HPrim.str "os.environ/KEY"))].map
          (hResolveEntry envSample))) := by
  obtain ⟨h', h1, _, h3⟩ := set_files_config_h_in_place_aliasing envSample
    [(0, HObj.hlist [HVal.ref 1]),
     (1, HObj.hdict [("api_key", HVal.prim (HPrim.str "os.environ/KEY"))])]
    Option.none 0 [HVal.ref 1] (by simp) rfl
  exact ⟨h', h1, h3 1 [("api_key", HVal.prim (HPrim.str "os.environ/KEY"))]
    (by simp) rfl⟩
